import Mathlib

/-!
Shallow embedding of the hacker-stories React application (src/src/App.jsx).

The embedded parts are the ones the specification's claims are about:
the story data model and `initialStories` (lines 45-62), the pure
state-transition function `storiesReducer` (lines 72-83), the
`useStorageState` hook's interaction with `localStorage` (lines 85-95),
the load effect of the `App` component (lines 110-122), and the pure
filter `searchedStories` (lines 135-137).  JavaScript strings are Lean
`String`s; where character-level operations matter (`toLowerCase`,
`includes`) they are modelled on `List Char`.  The `throw new Error()`
on the reducer's default branch is modelled with `Except`.
-/

/-- One story record, with the exact fields of the objects in
`initialStories` (src/src/App.jsx lines 45-62). -/
structure Story where
  title : String
  url : String
  author : String
  num_comments : Nat
  points : Nat
  objectID : Nat
deriving DecidableEq, Repr

/-- The two records of `initialStories` (src/src/App.jsx lines 45-62). -/
def initialStories : List Story :=
  [{ title := "React", url := "https://reactjs.org/", author := "Jordan Walke",
     num_comments := 3, points := 4, objectID := 0 },
   { title := "Redux", url := "https://redux.js.org/", author := "Dan Abramov, Andrew Clark",
     num_comments := 2, points := 5, objectID := 1 }]

/-- An action dispatched into `storiesReducer`.  The source dispatches
objects `{type, payload}` and the reducer switches on `action.type`
(src/src/App.jsx line 73); the constructor choice here models that tag
dispatch: `set_stories` is tag `"SET_STORIES"` with a list payload,
`remove_story` is tag `"REMOVE_STORY"` with a single record payload
(both dispatch sites, lines 115-118 and 125-128, pass exactly those
payload shapes), and `other tag` is an action whose `type` is any
string other than those two. -/
inductive StoriesAction where
  | set_stories (payload : List Story)
  | remove_story (payload : Story)
  | other (tag : String)
deriving DecidableEq, Repr

/-- The `throw new Error()` reached by the reducer's `default` branch
(src/src/App.jsx line 81), the spec's `InvalidAction` condition. -/
inductive ReducerError where
  | invalidAction
deriving DecidableEq, Repr

/-- The reducer `storiesReducer` (src/src/App.jsx lines 72-83):
`SET_STORIES` returns `action.payload`; `REMOVE_STORY` returns
`state.filter((story) => action.payload.objectID !== story.objectID)`;
the default branch throws, modelled as `Except.error`. -/
def storiesReducer (state : List Story) (action : StoriesAction) :
    Except ReducerError (List Story) :=
  match action with
  | StoriesAction.set_stories payload => Except.ok payload
  | StoriesAction.remove_story payload =>
      Except.ok (state.filter (fun story => payload.objectID != story.objectID))
  | StoriesAction.other _ => Except.error ReducerError.invalidAction

/-- The browser `localStorage`, modelled as an association list of
string keys to string values; `setItem` prepends and `getItem` takes
the first hit, so a later `setItem` overwrites an earlier one. -/
abbrev Store := List (String × String)

/-- JavaScript `localStorage.getItem(key)`: the stored string, or
`none` for JavaScript `null` when the key is absent. -/
def localStorageGetItem (store : Store) (key : String) : Option String :=
  (store.find? (fun entry => entry.fst == key)).map (fun entry => entry.snd)

/-- JavaScript `localStorage.setItem(key, value)`, as performed by the
effect of `useStorageState` (src/src/App.jsx lines 90-92) on every
value change. -/
def localStorageSetItem (store : Store) (key value : String) : Store :=
  (key, value) :: store

/-- The JavaScript expression `x || fallback` where `x` is the result
of `localStorage.getItem`: `null` (absent) and the empty string are the
only falsy values of type `string | null`, so both select `fallback`. -/
def jsStringOrElse (v : Option String) (fallback : String) : String :=
  match v with
  | none => fallback
  | some s => if s = "" then fallback else s

/-- The initial value computed by `useStorageState`
(src/src/App.jsx lines 86-88): `localStorage.getItem(key) || initialState`. -/
def useStorageStateInit (store : Store) (key initialState : String) : String :=
  jsStringOrElse (localStorageGetItem store key) initialState

/-- JavaScript `String.prototype.toLowerCase()` on the character
sequence of a string. -/
def toLowerCase (s : String) : List Char :=
  s.toList.map Char.toLower

/-- JavaScript `hay.includes(needle)`: `needle` occurs contiguously
inside `hay`.  Checks `needle` as a prefix at every suffix of `hay`. -/
def jsIncludes : List Char → List Char → Bool
  | [], needle => needle.isEmpty
  | c :: rest, needle => needle.isPrefixOf (c :: rest) || jsIncludes rest needle

/-- The predicate inlined in `searchedStories`
(src/src/App.jsx lines 135-137):
`story.title.toLowerCase().includes(searchTerm.toLowerCase())`. -/
def matchesQuery (story : Story) (searchTerm : String) : Bool :=
  jsIncludes (toLowerCase story.title) (toLowerCase searchTerm)

/-- The derived list `searchedStories` (src/src/App.jsx lines 135-137). -/
def searchedStories (stories : List Story) (searchTerm : String) : List Story :=
  stories.filter (fun story => matchesQuery story searchTerm)

/-- The three stateful values of the `App` component that the load
effect touches: `stories` (useReducer, line 103), `isLoading` and
`isError` (useState, lines 107-108). -/
structure AppState where
  stories : List Story
  isLoading : Bool
  isError : Bool
deriving DecidableEq, Repr

/-- The state of `App` on first render: `stories = []`,
`isLoading = false`, `isError = false` (src/src/App.jsx lines 103-108). -/
def initialAppState : AppState :=
  { stories := [], isLoading := false, isError := false }

/-- The two ways the promise returned by the provider can settle:
resolution with a record list, or rejection. -/
inductive LoadOutcome where
  | success (records : List Story)
  | failure
deriving DecidableEq, Repr

/-- `getAsyncStories` (src/src/App.jsx lines 64-70) resolves with
`{data: {stories: initialStories}}`, i.e. with `initialStories`. -/
def getAsyncStoriesOutcome : LoadOutcome :=
  LoadOutcome.success initialStories

/-- One observable effect of the `App` load effect: a `setIsLoading`
or `setIsError` state update, the provider invocation, or a
`dispatchStories` call. -/
inductive Effect where
  | setIsLoading (b : Bool)
  | invokeProvider
  | dispatchStories (action : StoriesAction)
  | setIsError (b : Bool)
deriving DecidableEq, Repr

/-- The ordered observable effects of the load effect
(src/src/App.jsx lines 110-122): `setIsLoading(true)`, then the call to
`getAsyncStories()`, then — on resolution — the `SET_STORIES` dispatch
followed by `setIsLoading(false)`, or — on rejection — `setIsError(true)`
(the `catch` handler, which does not touch `isLoading` or `stories`). -/
def loadEffects (outcome : LoadOutcome) : List Effect :=
  Effect.setIsLoading true ::
    Effect.invokeProvider ::
      match outcome with
      | LoadOutcome.success records =>
          [Effect.dispatchStories (StoriesAction.set_stories records),
           Effect.setIsLoading false]
      | LoadOutcome.failure => [Effect.setIsError true]

/-- Apply one effect to the component state.  `dispatchStories` routes
the action through `storiesReducer` and stores the result as the new
`stories`; a reducer throw propagates. -/
def applyEffect (s : AppState) (e : Effect) : Except ReducerError AppState :=
  match e with
  | Effect.setIsLoading b => Except.ok { s with isLoading := b }
  | Effect.invokeProvider => Except.ok s
  | Effect.setIsError b => Except.ok { s with isError := b }
  | Effect.dispatchStories action =>
      match storiesReducer s.stories action with
      | Except.ok next => Except.ok { s with stories := next }
      | Except.error err => Except.error err

/-- Run a list of effects in order, stopping at the first throw. -/
def runEffects : AppState → List Effect → Except ReducerError AppState
  | s, [] => Except.ok s
  | s, e :: rest =>
      match applyEffect s e with
      | Except.ok s2 => runEffects s2 rest
      | Except.error err => Except.error err

/-- The spec's `currentView()`: the current `stories` filtered by the
current query, recomputed on demand (src/src/App.jsx lines 135-137). -/
def currentView (s : AppState) (searchTerm : String) : List Story :=
  searchedStories s.stories searchTerm

/-- The executable JavaScript `includes` test decides contiguous-substring
containment: `jsIncludes hay needle` is true exactly when `needle` is an
infix of `hay`. -/
theorem jsIncludes_iff_isInfix (hay needle : List Char) :
    jsIncludes hay needle = true ↔ needle <:+: hay := by
  induction hay with
  | nil => simp [jsIncludes, List.isEmpty_iff, List.infix_nil]
  | cons c rest ih =>
      simp [jsIncludes, Bool.or_eq_true, List.isPrefixOf_iff_prefix, ih,
        List.infix_cons_iff]

/-- The empty query matches every record. -/
theorem matchesQuery_empty (story : Story) : matchesQuery story "" = true := by
  have h : toLowerCase "" = [] := rfl
  rw [matchesQuery, h, jsIncludes_iff_isInfix]
  exact List.nil_infix

/-- Filtering out the one id `k` present in a duplicate-free state drops
exactly one element. -/
theorem length_filter_remove (s : List Story) (k : Nat)
    (huniq : s.Pairwise (fun a b => a.objectID ≠ b.objectID))
    (hmem : ∃ st ∈ s, st.objectID = k) :
    (s.filter (fun st => k != st.objectID)).length = s.length - 1 := by
  induction s with
  | nil => simp at hmem
  | cons a rest ih =>
      rw [List.pairwise_cons] at huniq
      obtain ⟨ha, hrest⟩ := huniq
      by_cases hk : a.objectID = k
      · have hpa : (k != a.objectID) = false := by simp [hk]
        have hall : ∀ st ∈ rest, (k != st.objectID) = true := by
          intro st hst
          rw [← hk]
          exact bne_iff_ne.mpr (ha st hst)
        rw [List.filter_cons, hpa]
        simp [List.filter_eq_self.mpr hall]
      · have hpa : (k != a.objectID) = true := bne_iff_ne.mpr (fun h => hk h.symm)
        have hmem2 : ∃ st ∈ rest, st.objectID = k := by
          obtain ⟨st, hst, hstk⟩ := hmem
          rcases List.mem_cons.mp hst with h | h
          · exact absurd (h ▸ hstk) hk
          · exact ⟨st, h, hstk⟩
        have hlen : 0 < rest.length := by
          obtain ⟨st, hst, _⟩ := hmem2
          exact List.length_pos.mpr (List.ne_nil_of_mem hst)
        rw [List.filter_cons, hpa]
        simp only [if_true, List.length_cons, ih hrest hmem2]
        omega

/-- Claim C1: for every collection state `s` and record list `r`, the reducer
applied to the replace-all action (`SET_STORIES`) returns exactly `r` —
structurally equal, order preserved — regardless of the prior state (full
overwrite, not merge). -/
theorem storiesReducer_set_stories (s r : List Story) :
    storiesReducer s (StoriesAction.set_stories r) = Except.ok r := rfl

/-- Claim C2: for every state `s` with pairwise-distinct ids that contains a
record with the removed id, `REMOVE_STORY` succeeds with a state of length
`s.length - 1` that contains no record with that id, and every other record
is kept unchanged in its original relative order (the result is a sublist of
`s` retaining all records of other ids). -/
theorem storiesReducer_remove_existing (s : List Story) (p : Story)
    (huniq : s.Pairwise (fun a b => a.objectID ≠ b.objectID))
    (hmem : ∃ st ∈ s, st.objectID = p.objectID) :
    ∃ t, storiesReducer s (StoriesAction.remove_story p) = Except.ok t ∧
      t.length = s.length - 1 ∧
      (∀ st ∈ t, st.objectID ≠ p.objectID) ∧
      t.Sublist s ∧
      (∀ st ∈ s, st.objectID ≠ p.objectID → st ∈ t) := by
  refine ⟨s.filter (fun st => p.objectID != st.objectID), rfl, ?_, ?_, ?_, ?_⟩
  · exact length_filter_remove s p.objectID huniq hmem
  · intro st hst
    exact fun he => absurd he.symm (bne_iff_ne.mp (List.mem_filter.mp hst).2)
  · exact List.filter_sublist s
  · intro st hst hne
    exact List.mem_filter.mpr ⟨hst, bne_iff_ne.mpr (fun h => hne h.symm)⟩

/-- Witness for claim C2: removing the `React` story (id 0) from
`initialStories` satisfies both hypotheses and the conclusion. -/
theorem storiesReducer_remove_existing_witness :
    initialStories.Pairwise (fun a b => a.objectID ≠ b.objectID) ∧
    (∃ st ∈ initialStories, st.objectID =
      (⟨"React", "https://reactjs.org/", "Jordan Walke", 3, 4, 0⟩ : Story).objectID) ∧
    (∃ t, storiesReducer initialStories
        (StoriesAction.remove_story ⟨"React", "https://reactjs.org/", "Jordan Walke", 3, 4, 0⟩) =
          Except.ok t ∧
      t.length = initialStories.length - 1 ∧
      (∀ st ∈ t, st.objectID ≠
        (⟨"React", "https://reactjs.org/", "Jordan Walke", 3, 4, 0⟩ : Story).objectID) ∧
      t.Sublist initialStories ∧
      (∀ st ∈ initialStories, st.objectID ≠
        (⟨"React", "https://reactjs.org/", "Jordan Walke", 3, 4, 0⟩ : Story).objectID →
          st ∈ t)) :=
  ⟨by decide, by decide,
    storiesReducer_remove_existing initialStories _ (by decide) (by decide)⟩

/-- Claim C3: removing an id not present in the state is a defined no-op —
the reducer returns the prior state itself, and never an error. -/
theorem storiesReducer_remove_absent (s : List Story) (p : Story)
    (h : ∀ st ∈ s, st.objectID ≠ p.objectID) :
    storiesReducer s (StoriesAction.remove_story p) = Except.ok s := by
  have hf : s.filter (fun st => p.objectID != st.objectID) = s :=
    List.filter_eq_self.mpr (fun st hst => bne_iff_ne.mpr (fun he => h st hst he.symm))
  exact congrArg Except.ok hf

/-- Witness for claim C3: removing id 2, absent from `initialStories`,
leaves the state unchanged. -/
theorem storiesReducer_remove_absent_witness :
    (∀ st ∈ initialStories, st.objectID ≠
      (⟨"Vue", "https://vuejs.org/", "Evan You", 0, 0, 2⟩ : Story).objectID) ∧
    storiesReducer initialStories
        (StoriesAction.remove_story ⟨"Vue", "https://vuejs.org/", "Evan You", 0, 0, 2⟩) =
      Except.ok initialStories :=
  ⟨by decide, storiesReducer_remove_absent initialStories _ (by decide)⟩

/-- Claim C4: for every state and every action whose tag is neither
`SET_STORIES` nor `REMOVE_STORY`, the reducer fails with the
`InvalidAction` condition — it raises (`Except.error`) rather than
returning a state, and never silently ignores the action. -/
theorem storiesReducer_unknown_tag (s : List Story) (tag : String) :
    storiesReducer s (StoriesAction.other tag) =
      Except.error ReducerError.invalidAction := rfl

/-- Claim C5: `matchesQuery record q` is true exactly when the lowercased
query is a contiguous substring of the lowercased title; the empty query
matches every record; and only the title field influences the result —
changing every other field leaves the outcome unchanged. -/
theorem matchesQuery_spec (story : Story) (q : String) :
    (matchesQuery story q = true ↔
      toLowerCase q <:+: toLowerCase story.title) ∧
    matchesQuery story "" = true ∧
    (∀ (u a : String) (n pt i : Nat),
      matchesQuery ⟨story.title, u, a, n, pt, i⟩ q = matchesQuery story q) :=
  ⟨jsIncludes_iff_isInfix (toLowerCase story.title) (toLowerCase q),
   matchesQuery_empty story,
   fun _ _ _ _ _ => rfl⟩

/-- Claim C6: a successful load performs, in order, `setIsLoading(true)`,
the provider invocation, the `SET_STORIES` dispatch of the resolved
records, and `setIsLoading(false)`; run from the initial empty state it
yields exactly the provided records with `isLoading = false` and
`isError = false`, and the current view under the empty query returns
them all in original order. -/
theorem load_success_ordered (records : List Story) :
    loadEffects (LoadOutcome.success records) =
      [Effect.setIsLoading true, Effect.invokeProvider,
        Effect.dispatchStories (StoriesAction.set_stories records),
        Effect.setIsLoading false] ∧
    runEffects initialAppState (loadEffects (LoadOutcome.success records)) =
      Except.ok { stories := records, isLoading := false, isError := false } ∧
    currentView { stories := records, isLoading := false, isError := false } "" = records := by
  refine ⟨rfl, rfl, ?_⟩
  show List.filter _ records = records
  exact List.filter_eq_self.mpr (fun st _ => matchesQuery_empty st)

/-- Claim C7: when the provider rejects, the load sets `isError := true`
while the stories are left exactly as before the load (so empty when the
load was the initial one), the run completes without raising, and the
dispatch entry point still accepts and processes both further action
kinds afterwards. -/
theorem load_failure_operational (s0 : AppState) :
    loadEffects LoadOutcome.failure =
      [Effect.setIsLoading true, Effect.invokeProvider, Effect.setIsError true] ∧
    runEffects s0 (loadEffects LoadOutcome.failure) =
      Except.ok { s0 with isLoading := true, isError := true } ∧
    (∀ records : List Story,
      runEffects { s0 with isLoading := true, isError := true }
          [Effect.dispatchStories (StoriesAction.set_stories records)] =
        Except.ok { stories := records, isLoading := true, isError := true }) ∧
    (∀ p : Story,
      runEffects { s0 with isLoading := true, isError := true }
          [Effect.dispatchStories (StoriesAction.remove_story p)] =
        Except.ok ⟨s0.stories.filter (fun st => p.objectID != st.objectID), true, true⟩) :=
  ⟨rfl, rfl, fun _ => rfl, fun _ => rfl⟩

/-- Counterexample to claim C8 as stated: the store holds the present
value `""` under `"search"`, yet initialization returns the caller
default `"React"` instead of the stored `""` — a present stored value is
not always used, because the JavaScript `||` also treats the present
empty string as falsy. -/
theorem useStorageStateInit_cex :
    localStorageGetItem [("search", "")] "search" = some "" ∧
    useStorageStateInit [("search", "")] "search" "React" = "React" ∧
    ("React" : String) ≠ "" :=
  ⟨rfl, rfl, by decide⟩

/-- Claim C8 (amended): at session start the query is initialized from the
store under its key, and falls back to the caller-supplied default exactly
when the value is absent or the present stored value is the empty string
(both falsy under the JavaScript `||`); a present non-empty stored value
is always used. -/
theorem useStorageStateInit_amended (store : Store) (key d : String) :
    (localStorageGetItem store key = none → useStorageStateInit store key d = d) ∧
    (localStorageGetItem store key = some "" → useStorageStateInit store key d = d) ∧
    (∀ v, localStorageGetItem store key = some v → v ≠ "" →
      useStorageStateInit store key d = v) := by
  refine ⟨?_, ?_, ?_⟩
  · intro h; simp [useStorageStateInit, h, jsStringOrElse]
  · intro h; simp [useStorageStateInit, h, jsStringOrElse]
  · intro v h hv; simp [useStorageStateInit, h, jsStringOrElse, hv]

/-- Claim C9: query persistence round-trips — for every store, key and
value, writing the value through `setItem` and then reading the key
freshly through `getItem` returns exactly that value. -/
theorem storage_roundtrip (store : Store) (key v : String) :
    localStorageGetItem (localStorageSetItem store key v) key = some v := by
  simp [localStorageGetItem, localStorageSetItem]

/-- Claim C10: removal is total over duplicates and idempotent — for every
state, even one with several records sharing the removed id, the result
contains no record with that id, and removing the same id again returns
the same state. -/
theorem storiesReducer_remove_idempotent (s : List Story) (p : Story) :
    ∃ t, storiesReducer s (StoriesAction.remove_story p) = Except.ok t ∧
      (∀ st ∈ t, st.objectID ≠ p.objectID) ∧
      storiesReducer t (StoriesAction.remove_story p) = Except.ok t := by
  refine ⟨s.filter (fun st => p.objectID != st.objectID), rfl, ?_, ?_⟩
  · intro st hst
    exact fun he => absurd he.symm (bne_iff_ne.mp (List.mem_filter.mp hst).2)
  · have hff : (s.filter (fun st => p.objectID != st.objectID)).filter
        (fun st => p.objectID != st.objectID) =
        s.filter (fun st => p.objectID != st.objectID) := by
      rw [List.filter_filter]
      simp
    exact congrArg Except.ok hff
